import Mathlib

/-!
Verification of the automated defect lifecycle script
(`master_defect_system.py`).

The script is a linear three-stage batch job:
  1. `setup_stale_database` fetches a product catalog over HTTP and
     rebuilds a local sqlite table `products(id INTEGER PRIMARY KEY,
     title TEXT, price REAL)`, deliberately overwriting the price of the
     product whose id equals the sentinel (1) with 999.99;
  2. `run_integrity_scan` re-reads the table, re-fetches the first five
     records from the live API and collects price mismatches;
  3. `log_defects_to_jira` files one tracker ticket per mismatch.

The shallow embedding below renders each stage as a pure function.
HTTP traffic is modelled by explicit response values handed to the
functions; console prints are modelled as event lists; the sqlite store
is a list of rows (`Option` distinguishes a missing store file); process
exit and uncaught exceptions are explicit outcome constructors.
Prices are rationals, ids are integers.
-/

namespace MDS

/-- A product as delivered by the catalog API: the id, title and
price fields read from each item at lines 50-51 and 56. -/
structure Product where
  id : Int
  title : String
  price : Rat
deriving DecidableEq

/-- A persisted row of the `products` table. -/
structure Row where
  id : Int
  title : String
  price : Rat
deriving DecidableEq

/-- The hard-coded sentinel id of line 53 (`if pid == 1`). -/
def sentinelId : Int := 1

/-- The hard-coded injected price of line 54 (`price = 999.99`), written
as the exact rational 99999/100 so that it evaluates by kernel
reduction; `sentinelPrice_eq_literal` below identifies it with the
decimal literal. -/
def sentinelPrice : Rat := mkRat 99999 100

/-- Lines 50-56: the row actually inserted for a fetched product — the
sentinel id gets the fixed wrong price, everything else is copied. -/
def injectRow (p : Product) : Row :=
  { id := p.id, title := p.title
    price := if p.id = sentinelId then sentinelPrice else p.price }

/-! ### Catalog fetch (lines 25-35) -/

/-- Outcome of `requests.get(INVENTORY_API_URL)` as observed by the
loader: either the request itself raised, or a response with a status
code arrived.  `productsField` is `some ps` when the body parsed as JSON
carrying a well-formed `products` list, and `none` when `response.json()`
or the products-field lookup of line 30 would raise. -/
inductive FetchOutcome where
  | netErr (msg : String)
  | resp (status : Nat) (productsField : Option (List Product))
deriving DecidableEq

/-- The try-block of lines 26-30: `raise_for_status` raises for any
status of 400 or above, then the `products` field is extracted. -/
def fetchProducts : FetchOutcome → Except String (List Product)
  | .netErr msg => .error msg
  | .resp status pf =>
    if 400 ≤ status then .error ("HTTP " ++ toString status)
    else
      match pf with
      | some ps => .ok ps
      | none => .error "KeyError: products"

/-- Holds exactly when the try-block of the loader raises. -/
def fetchFailed (f : FetchOutcome) : Bool :=
  match fetchProducts f with
  | .error _ => true
  | .ok _ => false

/-! ### Loader (lines 22-60) -/

/-- The insert loop of lines 49-56.  `id INTEGER PRIMARY KEY` makes
sqlite reject a duplicate id, so the loop raises an uncaught
IntegrityError at the first repeated id; `used` carries the ids already
inserted. -/
def loaderInsert : List Product → List Int → Except String (List Row)
  | [], _ => .ok []
  | p :: ps, used =>
    if p.id ∈ used then .error "UNIQUE constraint failed: products.id"
    else
      match loaderInsert ps (p.id :: used) with
      | .ok rs => .ok (injectRow p :: rs)
      | .error e => .error e

/-- How a loader invocation ends: `sys.exit(1)` on a fetch failure
(line 35), an uncaught exception if an insert violates the primary key,
or normal completion. -/
inductive LoaderResult where
  | exited (code : Nat)
  | crashed (msg : String)
  | completed
deriving DecidableEq

/-- Stage one, `setup_stale_database`, as a transformer of the store file state
(`none` = file absent).  On a fetch failure the process exits before the
database is even opened, so the store is untouched.  On an insert crash
the DROP/CREATE ran in autocommit mode but the uncommitted inserts are
rolled back, leaving an empty table.  On success the table holds exactly
the injected rows, replacing whatever was there. -/
def setup_stale_database (fetch : FetchOutcome) (db : Option (List Row)) :
    LoaderResult × Option (List Row) :=
  match fetchProducts fetch with
  | .error _ => (.exited 1, db)
  | .ok products =>
    match loaderInsert products [] with
    | .error e => (.crashed e, some [])
    | .ok rows => (.completed, some rows)

/-! ### Scanner (lines 62-101) -/

/-- Outcome of the per-id GET of line 84: the request raised, or a
response arrived; `price` is `some q` when the price-field lookup of
line 86 yields `q` and `none` when that lookup (or the JSON parse)
would raise. -/
inductive ScanResp where
  | netErr (msg : String)
  | resp (status : Nat) (price : Option Rat)
deriving DecidableEq

/-- What the scanner prints: the missing-database message of line 66, the
per-id live fetch (the `requests.get` of line 84), the found-issue
message of line 90, and the caught-exception message of line 98. -/
inductive ScanEvent where
  | missingDb
  | queried (id : Int)
  | foundIssue (id : Int)
  | checkErr (id : Int)
deriving DecidableEq

/-- A collected defect record (lines 91-96). -/
structure Defect where
  id : Int
  desc : String
  expected : Rat
  actual : Rat
deriving DecidableEq

/-- The message of line 89. -/
def mkDesc (i : Int) (localPrice livePrice : Rat) : String :=
  "Price Mismatch for Item " ++ toString i ++ ". DB: $" ++
    toString localPrice ++ ", API: $" ++ toString livePrice

/-- The defect appended at lines 91-96. -/
def mkDefect (i : Int) (live stored : Rat) : Defect :=
  { id := i, desc := mkDesc i stored live, expected := live, actual := stored }

/-- One iteration of the scan loop (lines 83-98): query the live API for
the id of the row; inside the try-block a raised request or a missing price
field is caught and logged, a non-200 status is skipped silently, and a
200 response with a price differing from the stored one yields a defect. -/
def scanRecord (api : Int → ScanResp) (r : Row) : List ScanEvent × Option Defect :=
  match api r.id with
  | .netErr _ => ([.queried r.id, .checkErr r.id], none)
  | .resp status priceOpt =>
    if status = 200 then
      match priceOpt with
      | none => ([.queried r.id, .checkErr r.id], none)
      | some live =>
        if r.price ≠ live then
          ([.queried r.id, .foundIssue r.id], some (mkDefect r.id live r.price))
        else ([.queried r.id], none)
    else ([.queried r.id], none)

/-- The `for row in local_data[:5]` loop, accumulating prints and
defects in order. -/
def scanLoop (api : Int → ScanResp) : List Row → List ScanEvent × List Defect
  | [] => ([], [])
  | r :: rs =>
    let step := scanRecord api r
    let rest := scanLoop api rs
    (step.1 ++ rest.1, step.2.toList ++ rest.2)

/-- Insertion into an id-sorted list, used to model the order in which
sqlite returns rows. -/
def insertById (r : Row) : List Row → List Row
  | [] => [r]
  | x :: xs => if r.id ≤ x.id then r :: x :: xs else x :: insertById r xs

/-- The SELECT of line 73: the table is keyed by
`id INTEGER PRIMARY KEY` (the rowid), so a full scan returns the rows in
ascending id order. -/
def selectRows (db : List Row) : List Row :=
  db.foldr insertById []

/-- The slice of line 79: the subset of rows the scanner checks. -/
def scannedRows (db : List Row) : List Row :=
  (selectRows db).take 5

/-- Stage two, `run_integrity_scan`: with the store file absent it logs and returns
an empty list (lines 65-67); otherwise it scans the first five selected
rows. -/
def run_integrity_scan (api : Int → ScanResp) (db : Option (List Row)) :
    List ScanEvent × List Defect :=
  match db with
  | none => ([ScanEvent.missingDb], [])
  | some rows => scanLoop api (scannedRows rows)

/-- The id an event queried, if it is a query event. -/
def queriedId : ScanEvent → Option Int
  | .queried i => some i
  | _ => none

/-- Holds when the try-block of the scan loop fails for this row: the
request raised, the status was not 200, or the price field was missing. -/
def recordFails (api : Int → ScanResp) (r : Row) : Bool :=
  match api r.id with
  | .netErr _ => true
  | .resp status priceOpt => status != 200 || priceOpt.isNone

/-! ### Ticket logger (lines 103-146) -/

/-- The environment-sourced tracker configuration of lines 12-15.
`token` is `none` when `JIRA_TOKEN` is unset. -/
structure JiraConfig where
  url : String
  email : String
  projectKey : String
  token : Option String
deriving DecidableEq

/-- The token test of line 110: an absent or empty token is falsy. -/
def tokenPresent (cfg : JiraConfig) : Bool :=
  match cfg.token with
  | none => false
  | some s => !s.isEmpty

/-- The issue-creation payload built at lines 119-137. -/
structure IssuePayload where
  projectKey : String
  summary : String
  description : String
  issuetype : String
  priority : String
deriving DecidableEq

/-- The payload for one defect: project key from configuration, summary
naming the item, description from the defect message, fixed type and
priority. -/
def issuePayload (cfg : JiraConfig) (d : Defect) : IssuePayload :=
  { projectKey := cfg.projectKey
    summary := "[Auto-Alert] Data Integrity Fail: Item " ++ toString d.id
    description := d.desc ++ ". Please trigger inventory sync."
    issuetype := "Task"
    priority := "High" }

/-- A tracker response to one POST: its status code, the `key` field of
its JSON body when that body is a JSON object carrying one (`none` means
the key lookup of line 142 would raise), and the raw response text. -/
structure PostResp where
  status : Nat
  key : Option String
  text : String
deriving DecidableEq

/-- What the logger prints: the no-defects message (line 107), the
skipped-token message (line 111), one POST submission per defect
(line 139), a created-ticket key (line 143) or a failure with status and
raw body (lines 145-146). -/
inductive LogEvent where
  | noDefects
  | skipNoToken
  | submitted (payload : IssuePayload)
  | created (key : String)
  | failed (status : Nat) (body : String)
deriving DecidableEq

/-- How the logger ends: normal return, or an uncaught exception while
extracting the key field from the body of a 201 response. -/
inductive LoggerOutcome where
  | done
  | raised
deriving DecidableEq

/-- The payload an event submitted, if it is a submission. -/
def payloadOf : LogEvent → Option IssuePayload
  | .submitted p => some p
  | _ => none

/-- The loop of lines 118-146.  `post n` is the response of the tracker to
the n-th POST of the run.  A 201 response has its key extracted — an
uncaught exception if the body carries none — and any other status is
logged verbatim and the loop continues. -/
def loggerLoop (cfg : JiraConfig) (post : Nat → PostResp) :
    Nat → List Defect → List LogEvent × LoggerOutcome
  | _, [] => ([], .done)
  | i, d :: ds =>
    let r := post i
    if r.status = 201 then
      match r.key with
      | some k =>
        let rest := loggerLoop cfg post (i + 1) ds
        (.submitted (issuePayload cfg d) :: .created k :: rest.1, rest.2)
      | none => ([.submitted (issuePayload cfg d)], .raised)
    else
      let rest := loggerLoop cfg post (i + 1) ds
      (.submitted (issuePayload cfg d) :: .failed r.status r.text :: rest.1, rest.2)

/-- Stage three, `log_defects_to_jira` (lines 103-146): an empty defect list is a
no-op, an absent token skips ticket filing, otherwise one POST is made
per defect. -/
def log_defects_to_jira (cfg : JiraConfig) (post : Nat → PostResp)
    (defects_list : List Defect) : List LogEvent × LoggerOutcome :=
  if defects_list.isEmpty then ([LogEvent.noDefects], .done)
  else if tokenPresent cfg then loggerLoop cfg post 0 defects_list
  else ([LogEvent.skipNoToken], .done)

/-! ### Driver (lines 148-159) -/

/-- Observable outcome of one whole run: the process exit code, the
final store state, and the number of ticket POSTs performed. -/
structure RunResult where
  exitCode : Nat
  finalDb : Option (List Row)
  tickets : Nat
deriving DecidableEq

/-- The `__main__` block: loader, then scanner, then logger.  An exit or
crash in the loader stops the run with nothing posted; an uncaught
logger exception makes the process die with exit code 1. -/
def mainRun (cfg : JiraConfig) (fetch : FetchOutcome) (api : Int → ScanResp)
    (post : Nat → PostResp) (db0 : Option (List Row)) : RunResult :=
  match setup_stale_database fetch db0 with
  | (LoaderResult.exited c, db1) => { exitCode := c, finalDb := db1, tickets := 0 }
  | (LoaderResult.crashed _, db1) => { exitCode := 1, finalDb := db1, tickets := 0 }
  | (LoaderResult.completed, db1) =>
    let scanned := run_integrity_scan api db1
    let logged := log_defects_to_jira cfg post scanned.2
    { exitCode := match logged.2 with | .done => 0 | .raised => 1
      finalDb := db1
      tickets := (logged.1.filterMap payloadOf).length }

/-! ### Concrete data for sample runs -/

/-- The two-product catalog of the specification scenario. -/
def wCatalog : List Product :=
  [{ id := 1, title := "Widget", price := 10 },
   { id := 2, title := "Gadget", price := 20 }]

/-- The rows the loader writes for `wCatalog`. -/
def wRows : List Row :=
  [{ id := 1, title := "Widget", price := sentinelPrice },
   { id := 2, title := "Gadget", price := 20 }]

/-- The natural live prices of the scenario: 10.00 for id 1, 20.00 for
everything else. -/
def wNat : Int → Rat := fun i => if i = 1 then 10 else 20

/-- A live API answering 200 with the natural price for every id. -/
def wApi : Int → ScanResp := fun i => ScanResp.resp 200 (some (wNat i))

/-- Like `wApi` but erroring on id 6 — the two agree on ids 1 to 5. -/
def wApi6 : Int → ScanResp := fun i =>
  if i = 6 then ScanResp.netErr "timeout" else wApi i

/-- A six-row table whose stored prices all disagree with `wNat`. -/
def wRows6 : List Row :=
  [{ id := 1, title := "a", price := 1 }, { id := 2, title := "b", price := 2 },
   { id := 3, title := "c", price := 3 }, { id := 4, title := "d", price := 4 },
   { id := 5, title := "e", price := 5 }, { id := 6, title := "f", price := 6 }]

/-- A live API that times out on id 9 and otherwise answers 200. -/
def wApiF : Int → ScanResp := fun i =>
  if i = 9 then ScanResp.netErr "timeout" else ScanResp.resp 200 (some 99)

/-- Rows surrounding the failing record in the sample scan. -/
def wXs : List Row := [{ id := 2, title := "a", price := 5 }]

/-- The record whose live fetch fails in the sample scan. -/
def wFr : Row := { id := 9, title := "c", price := 7 }

/-- Rows after the failing record in the sample scan. -/
def wYs : List Row := [{ id := 3, title := "b", price := 6 }]

/-- A fully configured tracker. -/
def wCfg : JiraConfig :=
  { url := "https://jira.example.com", email := "bot@example.com"
    projectKey := "OPS", token := some "tok" }

/-- The same tracker configuration with the token unset. -/
def wCfgNoTok : JiraConfig :=
  { url := "https://jira.example.com", email := "bot@example.com"
    projectKey := "OPS", token := none }

/-- A second token-less configuration, differing in every other field. -/
def wCfgNoTok2 : JiraConfig :=
  { url := "https://jira.blue.example.com", email := "ops@blue.example.com"
    projectKey := "BLUE", token := none }

/-- A tracker that answers 201 with a fresh key to every POST. -/
def wPost201 : Nat → PostResp :=
  fun n => { status := 201, key := some ("OPS-" ++ toString n), text := "created" }

/-- A tracker whose second and later responses are 201 with a body
carrying no `key` field. -/
def wPostBad : Nat → PostResp :=
  fun n => if n = 0 then { status := 201, key := some "OPS-0", text := "created" }
           else { status := 201, key := none, text := "no key" }

/-- A two-defect list. -/
def wDefects : List Defect := [mkDefect 1 10 sentinelPrice, mkDefect 2 20 30]

/-- A three-defect list. -/
def wDefects3 : List Defect :=
  [mkDefect 1 10 sentinelPrice, mkDefect 2 20 30, mkDefect 3 5 6]

/-! ### Basic lemmas -/

/-- The injected constant is the decimal literal of line 54. -/
theorem sentinelPrice_eq_literal : sentinelPrice = 999.99 := by
  norm_num [sentinelPrice]

/-- Sorted insertion permutes to consing. -/
theorem insertById_perm (r : Row) (l : List Row) :
    List.Perm (insertById r l) (r :: l) := by
  induction l with
  | nil => exact List.Perm.refl _
  | cons x xs ih =>
    by_cases h : r.id ≤ x.id
    · simp [insertById, h]
    · simp only [insertById, h, if_neg, if_false]
      exact ((ih.cons x).trans (List.Perm.swap r x xs))

/-- The SELECT returns a permutation of the stored rows. -/
theorem selectRows_perm (l : List Row) : List.Perm (selectRows l) l := by
  induction l with
  | nil => exact List.Perm.refl _
  | cons x xs ih =>
    exact (insertById_perm x (selectRows xs)).trans (ih.cons x)

/-- The SELECT returns as many rows as are stored. -/
theorem selectRows_length (l : List Row) : (selectRows l).length = l.length :=
  (selectRows_perm l).length_eq

/-- The scan loop distributes over list append. -/
theorem scanLoop_append (api : Int → ScanResp) (xs ys : List Row) :
    scanLoop api (xs ++ ys) =
      ((scanLoop api xs).1 ++ (scanLoop api ys).1,
       (scanLoop api xs).2 ++ (scanLoop api ys).2) := by
  induction xs with
  | nil => simp [scanLoop]
  | cons x xs ih => simp [scanLoop, ih, List.append_assoc]

/-- A failing record yields no defect. -/
theorem scanRecord_fails_none (api : Int → ScanResp) (r : Row)
    (h : recordFails api r = true) : (scanRecord api r).2 = none := by
  unfold recordFails at h
  unfold scanRecord
  cases happ : api r.id with
  | netErr m => rfl
  | resp status priceOpt =>
    rw [happ] at h
    by_cases hs : status = 200
    · cases priceOpt with
      | none => simp [hs]
      | some q => simp [hs, happ] at h
    · simp [hs]

/-- Each loop iteration queries exactly the id of its row. -/
theorem scanRecord_queried (api : Int → ScanResp) (r : Row) :
    (scanRecord api r).1.filterMap queriedId = [r.id] := by
  unfold scanRecord
  cases api r.id with
  | netErr m => simp [queriedId]
  | resp status priceOpt =>
    by_cases hs : status = 200
    · cases priceOpt with
      | none => simp [hs, queriedId]
      | some q =>
        by_cases hp : r.price = q
        · simp [hs, hp, queriedId]
        · simp [hs, hp, queriedId]
    · simp [hs, queriedId]

/-- A defect produced by an iteration carries the id of its row. -/
theorem scanRecord_defect_id (api : Int → ScanResp) (r : Row) (d : Defect)
    (h : (scanRecord api r).2 = some d) : d.id = r.id := by
  unfold scanRecord at h
  cases happ : api r.id with
  | netErr m => rw [happ] at h; simp at h
  | resp status priceOpt =>
    rw [happ] at h
    by_cases hs : status = 200
    · cases priceOpt with
      | none => simp [hs] at h
      | some q =>
        by_cases hp : r.price = q
        · simp [hs, hp] at h
        · simp [hs, hp, mkDefect] at h
          rw [← h]
    · simp [hs] at h

/-- The scan queries exactly the ids of the rows it is given, in order. -/
theorem scanLoop_queried (api : Int → ScanResp) (l : List Row) :
    (scanLoop api l).1.filterMap queriedId = l.map Row.id := by
  induction l with
  | nil => simp [scanLoop]
  | cons r rs ih =>
    simp only [scanLoop, List.map_cons, List.filterMap_append]
    rw [scanRecord_queried, ih]
    rfl

/-- Every reported defect comes from one of the scanned rows. -/
theorem scanLoop_defect_ids (api : Int → ScanResp) (l : List Row) :
    ∀ d ∈ (scanLoop api l).2, d.id ∈ l.map Row.id := by
  induction l with
  | nil => simp [scanLoop]
  | cons r rs ih =>
    intro d hd
    simp only [scanLoop, List.mem_append] at hd
    rcases hd with hd | hd
    · cases hstep : (scanRecord api r).2 with
      | none => rw [hstep] at hd; simp at hd
      | some d0 =>
        rw [hstep] at hd
        simp at hd
        subst hd
        simp [scanRecord_defect_id api r d hstep]
    · simp [ih d hd]

/-- One iteration depends only on the live response at the id of its row. -/
theorem scanRecord_congr (api api2 : Int → ScanResp) (r : Row)
    (h : api r.id = api2 r.id) : scanRecord api r = scanRecord api2 r := by
  unfold scanRecord
  rw [h]

/-- The scan depends only on the live responses at the scanned ids. -/
theorem scanLoop_congr (api api2 : Int → ScanResp) (l : List Row)
    (h : ∀ r ∈ l, api r.id = api2 r.id) : scanLoop api l = scanLoop api2 l := by
  induction l with
  | nil => rfl
  | cons r rs ih =>
    simp only [scanLoop]
    rw [scanRecord_congr api api2 r (h r (by simp)),
        ih (fun x hx => h x (by simp [hx]))]

/-- When every scanned id answers 200 with a live price, the defects are
exactly the rows whose stored price differs from the live one. -/
theorem scanLoop_all_ok (api : Int → ScanResp) (nat : Int → Rat) (l : List Row)
    (h : ∀ r ∈ l, api r.id = ScanResp.resp 200 (some (nat r.id))) :
    (scanLoop api l).2 = l.filterMap (fun r =>
      if r.price = nat r.id then none
      else some (mkDefect r.id (nat r.id) r.price)) := by
  induction l with
  | nil => simp [scanLoop]
  | cons r rs ih =>
    simp only [scanLoop, List.filterMap_cons]
    have hr := h r (by simp)
    have hrec : (scanRecord api r).2 =
        if r.price = nat r.id then none
        else some (mkDefect r.id (nat r.id) r.price) := by
      unfold scanRecord
      rw [hr]
      by_cases hp : r.price = nat r.id
      · simp [hp]
      · simp [hp]
    rw [hrec, ih (fun x hx => h x (by simp [hx]))]
    by_cases hp : r.price = nat r.id
    · simp [hp]
    · simp [hp]

/-! ### Loader lemmas -/

/-- A successful insert loop wrote exactly the injected rows, its
product ids were pairwise distinct, and none of them was already used. -/
theorem loaderInsert_ok (ps : List Product) :
    ∀ (used : List Int) (rows : List Row), loaderInsert ps used = Except.ok rows →
      rows = ps.map injectRow
      ∧ (ps.map Product.id).Nodup
      ∧ ∀ i ∈ used, i ∉ ps.map Product.id := by
  induction ps with
  | nil =>
    intro used rows h
    simp only [loaderInsert, Except.ok.injEq] at h
    simp [← h]
  | cons p ps ih =>
    intro used rows h
    unfold loaderInsert at h
    by_cases hmem : p.id ∈ used
    · simp [hmem] at h
    · rw [if_neg hmem] at h
      cases hrec : loaderInsert ps (p.id :: used) with
      | error e => rw [hrec] at h; simp at h
      | ok rs =>
        rw [hrec] at h
        simp only [Except.ok.injEq] at h
        obtain ⟨hrows, hnd, hused⟩ := ih (p.id :: used) rs hrec
        have hpid : p.id ∉ ps.map Product.id := hused p.id (by simp)
        refine ⟨by rw [← h, hrows]; rfl, by simp [hpid, hnd], ?_⟩
        intro i hi
        have hine : i ≠ p.id := fun he => hmem (he ▸ hi)
        have : i ∉ ps.map Product.id := hused i (by simp [hi])
        simp [hine, this]

/-- In a duplicate-free list of ids, a present id is counted once. -/
theorem countP_eq_one_of_nodup (L : List Int) (a : Int) (hnd : L.Nodup)
    (ha : a ∈ L) : L.countP (fun b => decide (b = a)) = 1 := by
  induction L with
  | nil => simp at ha
  | cons b bs ih =>
    rw [List.countP_cons]
    rcases List.mem_cons.mp ha with h | h
    · subst h
      have hout : bs.countP (fun x => decide (x = a)) = 0 := by
        rw [List.countP_eq_zero]
        intro x hx
        simp only [decide_eq_true_eq]
        intro hxb
        exact (List.nodup_cons.mp hnd).1 (hxb ▸ hx)
      simp [hout]
    · have hne : b ≠ a := by
        intro hba
        exact (List.nodup_cons.mp hnd).1 (hba ▸ h)
      rw [ih (List.nodup_cons.mp hnd).2 h]
      simp [hne]

/-- A key occurring in a list whose keys are duplicate-free is matched
by exactly one element. -/
theorem countP_key_eq_one {α : Type} (f : α → Int) (a : Int) (l : List α)
    (x : α) (hnd : (l.map f).Nodup) (hx : x ∈ l) (hfx : f x = a) :
    l.countP (fun y => decide (f y = a)) = 1 := by
  have h := countP_eq_one_of_nodup (l.map f) a hnd
    (hfx ▸ List.mem_map_of_mem f hx)
  rw [List.countP_map] at h
  simpa [Function.comp] using h

/-- A `filterMap` that hits on exactly one key-matching element returns
that single image. -/
theorem filterMap_eq_singleton {α β : Type} (g : α → Option β)
    (key : α → Bool) (D : β) (l : List α)
    (h0 : ∀ y ∈ l, key y = false → g y = none)
    (h1 : ∀ y ∈ l, key y = true → g y = some D)
    (hc : l.countP key = 1) : l.filterMap g = [D] := by
  induction l with
  | nil => simp at hc
  | cons x xs ih =>
    rw [List.countP_cons] at hc
    by_cases hk : key x
    · have hc0 : xs.countP key = 0 := by
        rw [if_pos hk] at hc
        omega
      have hnil : xs.filterMap g = [] := by
        rw [List.filterMap_eq_nil_iff]
        intro y hy
        have hky : ¬ key y = true := List.countP_eq_zero.mp hc0 y hy
        exact h0 y (by simp [hy]) (by simpa using hky)
      simp [List.filterMap_cons, h1 x (by simp) hk, hnil]
    · have hc1 : xs.countP key = 1 := by
        rw [if_neg hk] at hc
        omega
      have hrest := ih (fun y hy => h0 y (by simp [hy]))
        (fun y hy => h1 y (by simp [hy])) hc1
      simp [List.filterMap_cons, h0 x (by simp) (by simpa using hk), hrest]

/-- Counting along the zip of a mapped list with its source is counting
along the source. -/
theorem zip_map_countP {α β : Type} (f : α → β) (l : List α)
    (p : β × α → Bool) :
    ((l.map f).zip l).countP p = l.countP (fun x => p (f x, x)) := by
  induction l with
  | nil => rfl
  | cons x xs ih => simp [List.zip_cons_cons, List.countP_cons, ih]

/-! ### Claims about the loader -/

/-- C1: after a successful loader run the table has one row per fetched
product, the sentinel row stores the fixed price 999.99 in place of the
fetched price, every other row copies id, title and price from the API,
and when the price the catalog itself carries for id 1 differs from 999.99 exactly
one row disagrees with its fetched counterpart. -/
theorem loader_rowcount_and_sentinel (ps : List Product) (rows : List Row)
    (h : loaderInsert ps [] = Except.ok rows) :
    rows.length = ps.length
    ∧ (∀ r ∈ rows, r.id = sentinelId → r.price = sentinelPrice)
    ∧ (∀ i, (hi : i < ps.length) → (hx : i < rows.length) →
        (rows.get ⟨i, hx⟩).id = (ps.get ⟨i, hi⟩).id
        ∧ (rows.get ⟨i, hx⟩).title = (ps.get ⟨i, hi⟩).title
        ∧ ((ps.get ⟨i, hi⟩).id ≠ sentinelId →
            (rows.get ⟨i, hx⟩).price = (ps.get ⟨i, hi⟩).price))
    ∧ ((∃ p ∈ ps, p.id = sentinelId ∧ p.price ≠ sentinelPrice) →
        (rows.zip ps).countP (fun q => decide (q.1.price ≠ q.2.price)) = 1) := by
  obtain ⟨hrows, hnd, -⟩ := loaderInsert_ok ps [] rows h
  subst hrows
  refine ⟨by simp, ?_, ?_, ?_⟩
  · intro r hr hrid
    obtain ⟨p, -, hp⟩ := List.mem_map.mp hr
    rw [← hp] at hrid ⊢
    simp only [injectRow] at hrid ⊢
    simp [hrid]
  · intro i hi hx
    simp only [List.get_eq_getElem, List.getElem_map]
    refine ⟨rfl, rfl, ?_⟩
    intro hne
    simp [injectRow, hne]
  · rintro ⟨p0, hp0, hp0id, hp0pr⟩
    rw [zip_map_countP]
    have hswap : ∀ q ∈ ps,
        (decide ((injectRow q).price ≠ q.price)) = true ↔
        (decide (q.id = sentinelId)) = true := by
      intro q hq
      simp only [decide_eq_true_eq]
      by_cases hqs : q.id = sentinelId
      · have hqp : q = p0 :=
          List.inj_on_of_nodup_map hnd hq hp0 (by rw [hqs, hp0id])
        rw [hqp]
        simp [injectRow, hp0id, Ne.symm hp0pr]
      · simp [injectRow, hqs]
    rw [List.countP_congr hswap]
    exact countP_key_eq_one Product.id sentinelId ps p0 hnd hp0 hp0id

/-- Witness for C1: the loader run on the two-product scenario catalog
writes two rows of which exactly one disagrees with the catalog. -/
theorem loader_rowcount_and_sentinel_witness :
    loaderInsert wCatalog [] = Except.ok wRows
    ∧ wRows.length = wCatalog.length
    ∧ (wRows.zip wCatalog).countP (fun q => decide (q.1.price ≠ q.2.price)) = 1 := by
  have h := loader_rowcount_and_sentinel wCatalog wRows rfl
  exact ⟨rfl, h.1,
    h.2.2.2 ⟨{ id := 1, title := "Widget", price := 10 }, by decide, by decide, by decide⟩⟩

/-- C4: when the catalog call errors, returns a failing status, or the
body lacks the product-list shape, the process exits with status 1, the
store file is left exactly as it was, and no ticket is ever filed. -/
theorem loader_fatal_error_atomic (cfg : JiraConfig) (fetch : FetchOutcome)
    (api : Int → ScanResp) (post : Nat → PostResp) (db0 : Option (List Row))
    (h : fetchFailed fetch = true) :
    setup_stale_database fetch db0 = (LoaderResult.exited 1, db0)
    ∧ mainRun cfg fetch api post db0
        = { exitCode := 1, finalDb := db0, tickets := 0 } := by
  unfold fetchFailed at h
  cases hf : fetchProducts fetch with
  | error e => constructor <;> simp [mainRun, setup_stale_database, hf]
  | ok ps => rw [hf] at h; simp at h

/-- Witness for C4: a connection error leaves a populated store intact,
exits with code 1 and posts nothing. -/
theorem loader_fatal_error_atomic_witness :
    fetchFailed (FetchOutcome.netErr "connection refused") = true
    ∧ mainRun wCfg (FetchOutcome.netErr "connection refused") wApi wPost201
        (some wRows) = { exitCode := 1, finalDb := some wRows, tickets := 0 } :=
  ⟨by decide, (loader_fatal_error_atomic wCfg (FetchOutcome.netErr "connection refused")
      wApi wPost201 (some wRows) (by decide)).2⟩

/-- C6: running the loader twice against the same API response is
idempotent — the second run reproduces exactly the table state and the
outcome of the first, never accumulating rows. -/
theorem loader_idempotent_replace (fetch : FetchOutcome) (db0 : Option (List Row)) :
    (setup_stale_database fetch (setup_stale_database fetch db0).2).2
      = (setup_stale_database fetch db0).2
    ∧ (setup_stale_database fetch (setup_stale_database fetch db0).2).1
      = (setup_stale_database fetch db0).1 := by
  unfold setup_stale_database
  cases hf : fetchProducts fetch with
  | error e => simp
  | ok ps =>
    cases hi : loaderInsert ps [] with
    | error e => simp
    | ok rows => simp

/-! ### Claims about the scanner -/

/-- C7: when the local store file does not exist at scan time, the
scanner logs the missing-store condition and returns an empty defect
list without raising. -/
theorem scanner_missing_store_empty (api : Int → ScanResp) :
    run_integrity_scan api none = ([ScanEvent.missingDb], []) := rfl

/-- C8: a per-record failure — network error on the per-id GET, a
non-200 status, or a response missing the price field — contributes no
defect, is logged or skipped, and the loop continues with the remaining
rows; the accumulated defect list of the other rows is returned. -/
theorem scanner_record_failure_skipped (api : Int → ScanResp)
    (xs ys : List Row) (r : Row) (h : recordFails api r = true) :
    (scanLoop api (xs ++ r :: ys)).2 = (scanLoop api xs).2 ++ (scanLoop api ys).2
    ∧ (scanLoop api (xs ++ r :: ys)).1 =
        (scanLoop api xs).1 ++ (scanRecord api r).1 ++ (scanLoop api ys).1 := by
  have hnone := scanRecord_fails_none api r h
  constructor
  · rw [scanLoop_append]
    simp [scanLoop, hnone]
  · rw [scanLoop_append]
    simp [scanLoop, List.append_assoc]

/-- Witness for C8: a scan of three rows whose middle record times out
returns exactly the defects of the two healthy rows. -/
theorem scanner_record_failure_skipped_witness :
    recordFails wApiF wFr = true
    ∧ (scanLoop wApiF (wXs ++ wFr :: wYs)).2 = (scanLoop wApiF wXs).2 ++ (scanLoop wApiF wYs).2
    ∧ (scanLoop wApiF (wXs ++ wFr :: wYs)).1 =
        (scanLoop wApiF wXs).1 ++ (scanRecord wApiF wFr).1 ++ (scanLoop wApiF wYs).1 :=
  ⟨by decide, (scanner_record_failure_skipped wApiF wXs wYs wFr (by decide)).1,
   (scanner_record_failure_skipped wApiF wXs wYs wFr (by decide)).2⟩

/-- C2: when the scanned subset contains the sentinel id and every
per-id call answers 200 with the natural catalog price, the defect list
is exactly one entry — the sentinel id, expected the live price, actual
the stored 999.99 — and no entry for any other id. -/
theorem scanner_sentinel_defect_only (ps : List Product) (rows : List Row)
    (api : Int → ScanResp) (liveNat : Int → Rat)
    (hok : loaderInsert ps [] = Except.ok rows)
    (hapi : ∀ i, api i = ScanResp.resp 200 (some (liveNat i)))
    (hnat : ∀ p ∈ ps, liveNat p.id = p.price)
    (hsent : sentinelId ∈ (scannedRows rows).map Row.id)
    (hinj : ∀ p ∈ ps, p.id = sentinelId → p.price ≠ sentinelPrice) :
    (run_integrity_scan api (some rows)).2
      = [mkDefect sentinelId (liveNat sentinelId) sentinelPrice] := by
  obtain ⟨hrows, hnd, -⟩ := loaderInsert_ok ps [] rows hok
  subst hrows
  have hmemL : ∀ r ∈ scannedRows (ps.map injectRow), r ∈ ps.map injectRow := by
    intro r hr
    exact (selectRows_perm (ps.map injectRow)).subset
      (List.take_subset 5 (selectRows (ps.map injectRow)) hr)
  have hndRows : ((ps.map injectRow).map Row.id).Nodup := by
    rw [List.map_map]
    simpa [Function.comp, injectRow] using hnd
  have hndSel : ((selectRows (ps.map injectRow)).map Row.id).Nodup :=
    (((selectRows_perm (ps.map injectRow)).map Row.id).nodup_iff).mpr hndRows
  have hndL : ((scannedRows (ps.map injectRow)).map Row.id).Nodup :=
    hndSel.sublist ((List.take_sublist 5 _).map Row.id)
  have hall : ∀ r ∈ scannedRows (ps.map injectRow),
      api r.id = ScanResp.resp 200 (some (liveNat r.id)) := fun r _ => hapi r.id
  show (scanLoop api (scannedRows (ps.map injectRow))).2 = _
  rw [scanLoop_all_ok api liveNat _ hall]
  obtain ⟨r0, hr0L, hr0id⟩ := List.mem_map.mp hsent
  refine filterMap_eq_singleton _ (fun r => decide (r.id = sentinelId)) _ _ ?_ ?_ ?_
  · intro y hyL hkey
    have hyne : y.id ≠ sentinelId := by simpa using hkey
    obtain ⟨p, hp, hpy⟩ := List.mem_map.mp (hmemL y hyL)
    have hpid : p.id = y.id := by rw [← hpy]; rfl
    have hyp : y.price = p.price := by
      rw [← hpy]
      simp [injectRow, hpid.symm ▸ hyne]
    have : liveNat y.id = y.price := by
      rw [← hpid, hnat p hp, hyp]
    simp [this]
  · intro y hyL hkey
    have hyid : y.id = sentinelId := by simpa using hkey
    obtain ⟨p, hp, hpy⟩ := List.mem_map.mp (hmemL y hyL)
    have hpid : p.id = y.id := by rw [← hpy]; rfl
    have hpsent : p.id = sentinelId := hpid.trans hyid
    have hyp : y.price = sentinelPrice := by
      rw [← hpy]
      simp [injectRow, hpsent]
    have hlive : liveNat y.id = p.price := by rw [← hpid, hnat p hp]
    have hno : ¬ y.price = liveNat y.id := by
      rw [hyp, hlive]
      exact fun he => hinj p hp hpsent he.symm
    simp only [if_neg hno]
    rw [hyid, hyp]
  · exact countP_key_eq_one Row.id sentinelId _ r0 hndL hr0L hr0id

/-- Witness for C2: the specification scenario — catalog Widget/Gadget,
live prices 10 and 20 — yields the single defect for id 1 with expected
10 and actual 999.99. -/
theorem scanner_sentinel_defect_only_witness :
    (run_integrity_scan wApi (some wRows)).2
      = [mkDefect sentinelId 10 sentinelPrice] := by
  have h := scanner_sentinel_defect_only wCatalog wRows wApi wNat rfl
    (fun i => rfl) (by decide) (by decide) (by decide)
  simpa [wNat, sentinelId] using h

/-- C9: for any table state, the scanner queries exactly the first
min(n, 5) rows in SELECT order, every reported defect carries one of
the id of one of those rows, and the scan result is unchanged under any live API
that agrees on those ids — a row beyond the fifth is never queried and
never reported. -/
theorem scanner_first_five_only (rows : List Row) (api api2 : Int → ScanResp) :
    (run_integrity_scan api (some rows)).1.filterMap queriedId
        = (scannedRows rows).map Row.id
    ∧ (scannedRows rows).length = min rows.length 5
    ∧ (∀ d ∈ (run_integrity_scan api (some rows)).2,
        d.id ∈ (scannedRows rows).map Row.id)
    ∧ ((∀ r ∈ scannedRows rows, api r.id = api2 r.id) →
        run_integrity_scan api (some rows) = run_integrity_scan api2 (some rows)) := by
  refine ⟨?_, ?_, ?_, ?_⟩
  · exact scanLoop_queried api (scannedRows rows)
  · simp only [scannedRows, List.length_take, selectRows_length]
    omega
  · exact scanLoop_defect_ids api (scannedRows rows)
  · intro h
    show scanLoop api (scannedRows rows) = scanLoop api2 (scannedRows rows)
    exact scanLoop_congr api api2 _ h

/-- Witness for C9: on a six-row table the scanner queries ids 1-5 only,
a mismatch on row 1 is reported, and an API differing only at id 6
produces an identical scan. -/
theorem scanner_first_five_only_witness :
    (run_integrity_scan wApi (some wRows6)).1.filterMap queriedId
        = (scannedRows wRows6).map Row.id
    ∧ (scannedRows wRows6).length = min wRows6.length 5
    ∧ mkDefect 1 10 1 ∈ (run_integrity_scan wApi (some wRows6)).2
    ∧ (mkDefect 1 10 1).id ∈ (scannedRows wRows6).map Row.id
    ∧ run_integrity_scan wApi (some wRows6) = run_integrity_scan wApi6 (some wRows6) := by
  have h := scanner_first_five_only wRows6 wApi wApi6
  exact ⟨h.1, h.2.1, by decide, h.2.2.1 (mkDefect 1 10 1) (by decide),
    h.2.2.2 (by decide)⟩

/-! ### Logger lemmas -/

/-- When every 201 response in range carries a key, the ticket loop
terminates normally, submits one payload per defect in order, and logs a
created key for each 201 and a status-and-body failure for each other
status. -/
theorem loggerLoop_done (cfg : JiraConfig) (post : Nat → PostResp) :
    ∀ (ds : List Defect) (i : Nat),
      (∀ k, k < ds.length → (post (i + k)).status = 201 →
        (post (i + k)).key.isSome = true) →
      (loggerLoop cfg post i ds).2 = LoggerOutcome.done
      ∧ (loggerLoop cfg post i ds).1.filterMap payloadOf = ds.map (issuePayload cfg)
      ∧ (∀ k, k < ds.length → (post (i + k)).status = 201 →
          LogEvent.created ((post (i + k)).key.getD "") ∈ (loggerLoop cfg post i ds).1)
      ∧ (∀ k, k < ds.length → (post (i + k)).status ≠ 201 →
          LogEvent.failed (post (i + k)).status (post (i + k)).text
            ∈ (loggerLoop cfg post i ds).1) := by
  intro ds
  induction ds with
  | nil =>
    intro i h
    exact ⟨rfl, rfl, by intro k hk; simp at hk, by intro k hk; simp at hk⟩
  | cons d ds ih =>
    intro i h
    have hshift : ∀ k, k < ds.length → (post (i + 1 + k)).status = 201 →
        (post (i + 1 + k)).key.isSome = true := by
      intro k hk
      have harr : i + 1 + k = i + (k + 1) := by omega
      rw [harr]
      exact h (k + 1) (by simp; omega)
    have hrec := ih (i + 1) hshift
    by_cases hs : (post i).status = 201
    · have hks : (post i).key.isSome = true := by
        have h0 := h 0 (by simp) (by simpa using hs)
        simpa using h0
      obtain ⟨k0, hk0⟩ := Option.isSome_iff_exists.mp hks
      have hunf : loggerLoop cfg post i (d :: ds) =
          (LogEvent.submitted (issuePayload cfg d) :: LogEvent.created k0 ::
            (loggerLoop cfg post (i + 1) ds).1,
           (loggerLoop cfg post (i + 1) ds).2) := by
        simp [loggerLoop, hs, hk0]
      rw [hunf]
      refine ⟨hrec.1, ?_, ?_, ?_⟩
      · simp [List.filterMap_cons, payloadOf, hrec.2.1]
      · intro k hk h201
        cases k with
        | zero =>
          simp only [Nat.add_zero] at h201 ⊢
          rw [hk0]
          simp
        | succ k =>
          have harr : i + (k + 1) = i + 1 + k := by omega
          rw [harr] at h201 ⊢
          have := hrec.2.2.1 k (by simpa using hk) h201
          simp [this]
      · intro k hk hne
        cases k with
        | zero => simp only [Nat.add_zero] at hne; exact absurd hs hne
        | succ k =>
          have harr : i + (k + 1) = i + 1 + k := by omega
          rw [harr] at hne ⊢
          have := hrec.2.2.2 k (by simpa using hk) hne
          simp [this]
    · have hunf : loggerLoop cfg post i (d :: ds) =
          (LogEvent.submitted (issuePayload cfg d) ::
            LogEvent.failed (post i).status (post i).text ::
            (loggerLoop cfg post (i + 1) ds).1,
           (loggerLoop cfg post (i + 1) ds).2) := by
        simp [loggerLoop, hs]
      rw [hunf]
      refine ⟨hrec.1, ?_, ?_, ?_⟩
      · simp [List.filterMap_cons, payloadOf, hrec.2.1]
      · intro k hk h201
        cases k with
        | zero => simp only [Nat.add_zero] at h201; exact absurd h201 hs
        | succ k =>
          have harr : i + (k + 1) = i + 1 + k := by omega
          rw [harr] at h201 ⊢
          have := hrec.2.2.1 k (by simpa using hk) h201
          simp [this]
      · intro k hk hne
        cases k with
        | zero =>
          simp only [Nat.add_zero] at hne ⊢
          simp
        | succ k =>
          have harr : i + (k + 1) = i + 1 + k := by omega
          rw [harr] at hne ⊢
          have := hrec.2.2.2 k (by simpa using hk) hne
          simp [this]

/-- If the first malformed 201 response arrives at relative position j,
the loop raises there after exactly j + 1 submissions. -/
theorem loggerLoop_raised (cfg : JiraConfig) (post : Nat → PostResp) :
    ∀ (ds : List Defect) (i j : Nat), j < ds.length →
      (∀ k, k < j → (post (i + k)).status = 201 →
        (post (i + k)).key.isSome = true) →
      (post (i + j)).status = 201 → (post (i + j)).key = none →
      (loggerLoop cfg post i ds).2 = LoggerOutcome.raised
      ∧ ((loggerLoop cfg post i ds).1.filterMap payloadOf).length = j + 1 := by
  intro ds
  induction ds with
  | nil => intro i j hj; simp at hj
  | cons d ds ih =>
    intro i j hj hprev h201 hkey
    cases j with
    | zero =>
      simp only [Nat.add_zero] at h201 hkey
      have hunf : loggerLoop cfg post i (d :: ds) =
          ([LogEvent.submitted (issuePayload cfg d)], LoggerOutcome.raised) := by
        simp [loggerLoop, h201, hkey]
      rw [hunf]
      exact ⟨rfl, by simp [payloadOf]⟩
    | succ j =>
      have harr : ∀ k, i + 1 + k = i + (k + 1) := by omega
      have h201s : (post (i + 1 + j)).status = 201 := by rw [harr j]; exact h201
      have hkeys2 : (post (i + 1 + j)).key = none := by rw [harr j]; exact hkey
      have hprevs : ∀ k, k < j → (post (i + 1 + k)).status = 201 →
          (post (i + 1 + k)).key.isSome = true := by
        intro k hk
        rw [harr k]
        exact hprev (k + 1) (by omega)
      have hrec := ih (i + 1) j (by simpa using hj) hprevs h201s hkeys2
      have h0 : (post i).status = 201 → (post i).key.isSome = true := by
        have := hprev 0 (by omega)
        simpa using this
      by_cases hs : (post i).status = 201
      · obtain ⟨k0, hk0⟩ := Option.isSome_iff_exists.mp (h0 hs)
        have hunf : loggerLoop cfg post i (d :: ds) =
            (LogEvent.submitted (issuePayload cfg d) :: LogEvent.created k0 ::
              (loggerLoop cfg post (i + 1) ds).1,
             (loggerLoop cfg post (i + 1) ds).2) := by
          simp [loggerLoop, hs, hk0]
        rw [hunf]
        exact ⟨hrec.1, by simp [List.filterMap_cons, payloadOf, hrec.2]⟩
      · have hunf : loggerLoop cfg post i (d :: ds) =
            (LogEvent.submitted (issuePayload cfg d) ::
              LogEvent.failed (post i).status (post i).text ::
              (loggerLoop cfg post (i + 1) ds).1,
             (loggerLoop cfg post (i + 1) ds).2) := by
          simp [loggerLoop, hs]
        rw [hunf]
        exact ⟨hrec.1, by simp [List.filterMap_cons, payloadOf, hrec.2]⟩

/-! ### Claims about the logger -/

/-- C3: with the token configured and every 201 response well-formed,
the logger performs exactly one POST per defect — N submissions for N
defects, zero for the empty list — logging the created key for each 201
and the status code and raw body for each other status, and never
aborts the loop. -/
theorem logger_one_post_per_defect (cfg : JiraConfig) (post : Nat → PostResp)
    (ds : List Defect) (htok : tokenPresent cfg = true)
    (hkeys : ∀ k, k < ds.length → (post k).status = 201 →
      (post k).key.isSome = true) :
    (log_defects_to_jira cfg post ds).2 = LoggerOutcome.done
    ∧ (log_defects_to_jira cfg post ds).1.filterMap payloadOf
        = ds.map (issuePayload cfg)
    ∧ (∀ k, k < ds.length → (post k).status = 201 →
        LogEvent.created ((post k).key.getD "")
          ∈ (log_defects_to_jira cfg post ds).1)
    ∧ (∀ k, k < ds.length → (post k).status ≠ 201 →
        LogEvent.failed (post k).status (post k).text
          ∈ (log_defects_to_jira cfg post ds).1) := by
  cases ds with
  | nil => exact ⟨rfl, rfl, by intro k hk; simp at hk, by intro k hk; simp at hk⟩
  | cons d ds =>
    have hunf : log_defects_to_jira cfg post (d :: ds)
        = loggerLoop cfg post 0 (d :: ds) := by
      simp [log_defects_to_jira, htok]
    rw [hunf]
    have h := loggerLoop_done cfg post (d :: ds) 0 (by simpa using hkeys)
    simpa using h

/-- Witness for C3: two defects against an always-201 tracker produce
two submissions, a normal return and both created keys logged. -/
theorem logger_one_post_per_defect_witness :
    (log_defects_to_jira wCfg wPost201 wDefects).2 = LoggerOutcome.done
    ∧ (log_defects_to_jira wCfg wPost201 wDefects).1.filterMap payloadOf
        = wDefects.map (issuePayload wCfg)
    ∧ LogEvent.created "OPS-0" ∈ (log_defects_to_jira wCfg wPost201 wDefects).1 := by
  have h := logger_one_post_per_defect wCfg wPost201 wDefects rfl
    (fun k hk h201 => rfl)
  refine ⟨h.1, h.2.1, ?_⟩
  have h0 := h.2.2.1 0 (by decide) rfl
  simpa [wPost201] using h0

/-- C10: a 201 response whose body carries no key makes the logger raise
while extracting it, abandoning the remaining defects: exactly j + 1 of
the N submissions happen when the malformed response is the j-th. -/
theorem logger_malformed_201_raises (cfg : JiraConfig) (post : Nat → PostResp)
    (ds : List Defect) (j : Nat) (htok : tokenPresent cfg = true)
    (hj : j < ds.length)
    (hprev : ∀ k, k < j → (post k).status = 201 → (post k).key.isSome = true)
    (h201 : (post j).status = 201) (hkey : (post j).key = none) :
    (log_defects_to_jira cfg post ds).2 = LoggerOutcome.raised
    ∧ ((log_defects_to_jira cfg post ds).1.filterMap payloadOf).length = j + 1 := by
  cases ds with
  | nil => simp at hj
  | cons d ds =>
    have hunf : log_defects_to_jira cfg post (d :: ds)
        = loggerLoop cfg post 0 (d :: ds) := by
      simp [log_defects_to_jira, htok]
    rw [hunf]
    exact loggerLoop_raised cfg post (d :: ds) 0 j hj (by simpa using hprev)
      (by simpa using h201) (by simpa using hkey)

/-- Witness for C10: of three defects, the second response is a 201
without a key — the logger raises after exactly two submissions. -/
theorem logger_malformed_201_raises_witness :
    (log_defects_to_jira wCfg wPostBad wDefects3).2 = LoggerOutcome.raised
    ∧ ((log_defects_to_jira wCfg wPostBad wDefects3).1.filterMap payloadOf).length = 2 :=
  logger_malformed_201_raises wCfg wPostBad wDefects3 1 rfl (by decide)
    (fun k hk _ => by
      have hk0 : k = 0 := by omega
      rw [hk0]
      rfl)
    rfl rfl

/-- C5 as corrected: with the token absent or empty and a nonempty
defect list, the logger always skips silently — for every configuration
the skip is hard-coded, and no configuration produces the
abort-at-startup behavior. -/
theorem token_absent_silent_skip (cfg : JiraConfig) (post : Nat → PostResp)
    (d : Defect) (ds : List Defect) (htok : tokenPresent cfg = false) :
    log_defects_to_jira cfg post (d :: ds)
      = ([LogEvent.skipNoToken], LoggerOutcome.done) := by
  simp [log_defects_to_jira, htok]

/-- Witness for the corrected C5: a token-less configuration with one
defect skips filing and returns normally. -/
theorem token_absent_silent_skip_witness :
    log_defects_to_jira wCfgNoTok wPost201 wDefects
      = ([LogEvent.skipNoToken], LoggerOutcome.done) := by
  cases hd : wDefects with
  | nil => simp [wDefects] at hd
  | cons d ds => exact token_absent_silent_skip wCfgNoTok wPost201 d ds rfl

/-- Counterexample to C5 as stated: with the token absent the process
never aborts at startup — under two configurations differing in every
other field, a full run with a detected defect completes all three
stages with exit code 0 and zero submissions, so the skip behavior is
hard-coded rather than selected by configuration. -/
theorem token_absent_not_configurable_cex :
    mainRun wCfgNoTok (FetchOutcome.resp 200 (some wCatalog)) wApi wPost201 none
      = { exitCode := 0, finalDb := some wRows, tickets := 0 }
    ∧ mainRun wCfgNoTok2 (FetchOutcome.resp 200 (some wCatalog)) wApi wPost201 none
      = { exitCode := 0, finalDb := some wRows, tickets := 0 } := by
  constructor <;> rfl

end MDS
